import Mathlib

/-!
Verification of the `uf_base_scolarite` bulk-load pipeline
(`import_data.py` against the schema in `models.py`).

The development shallowly embeds the pipeline:

* Python / pandas cell values are modelled by `PyVal` (a string, `None`,
  `NaN`, an integer, or a date).  `pd.read_excel` followed by
  `df.where(pd.notnull(df), None)` yields rows whose missing cells are
  `PyVal.pnone`.
* SQLAlchemy tables are lists of records; `session.merge` keyed on the
  primary key is modelled by `upsert`, and a loop of merges by `load`.
* The three input spreadsheets are a `World`; an unreadable file is `none`.
* Per-row error recovery is modelled with an explicit verdict oracle for
  student rows (the database either accepts a row or rejects it with a
  message), and the `import_errors.log` diagnostics file as a list of
  structured entries.

Commit/rollback notes: the orchestration commits each stage before the
next starts and the model applies successful merges directly to the
table; a rolled-back row is simply not applied.  The enrollment loader,
whose batching claim depends on the pending/committed distinction, keeps
an explicit pending table.
-/

set_option linter.unusedSectionVars false

/-- A Python/pandas cell value as it appears in a loaded dataframe row:
a string, `None`, float `NaN`, an integer, or a (coerced) date.  Dates are
abstracted to a day ordinal, which the pipeline never inspects. -/
inductive PyVal where
  | pstr (s : String)
  | pnone
  | pnan
  | pint (n : Int)
  | pdate (d : Nat)
deriving DecidableEq, Repr

namespace PyVal

/-- `pd.notna` / `pd.notnull` on a cell: everything except `None` and `NaN`. -/
def notna : PyVal → Bool
  | pnone => false
  | pnan => false
  | _ => true

/-- `isinstance(v, str)`. -/
def isStr : PyVal → Bool
  | pstr _ => true
  | _ => false

/-- `isinstance(v, date)`. -/
def isDate : PyVal → Bool
  | pdate _ => true
  | _ => false

/-- The underlying string of a `pstr` value (only ever applied to values that
the pipeline has already passed through `astype(str)`). -/
def asStr : PyVal → String
  | pstr s => s
  | _ => ""

end PyVal

/-- Characters removed by Python's `str.strip()` (ASCII whitespace; the
pipeline's cells only ever contain these). -/
def isPyWS (c : Char) : Bool :=
  c == ' ' || c == '\t' || c == '\n' || c == '\r'

/-- Python `str.strip()`: drop leading and trailing whitespace. -/
def pyStrip (s : String) : String :=
  String.mk (((s.data.dropWhile isPyWS).reverse.dropWhile isPyWS).reverse)

/-- Python `str.upper()` (ASCII, which is all the pipeline's codes use). -/
def pyUpper (s : String) : String :=
  String.mk (s.data.map Char.toUpper)

/-- Python `c in s` membership of a single character in a string. -/
def pyInStr (c : Char) (s : String) : Bool :=
  s.data.contains c

/-- `str(v)`: pandas `astype(str)` applied to one cell.  `None` renders as
the literal string `"None"` and float `NaN` as `"nan"`. -/
def astypeStr : PyVal → PyVal
  | .pstr s => .pstr s
  | .pnone => .pstr "None"
  | .pnan => .pstr "nan"
  | .pint n => .pstr (toString n)
  | .pdate d => .pstr ("date-" ++ toString d)

/-- `safe_string` from `import_data.py` lines 28-34: `None` and non-strings
are returned unchanged, strings are stripped. -/
def safe_string : PyVal → PyVal
  | .pstr s => .pstr (pyStrip s)
  | v => v

/-- The `df[col].astype(str).apply(safe_string)` idiom used to clean every
key column (`import_data.py` lines 117, 230-234, 302, 319, 323, 355). -/
def cleanKey (v : PyVal) : PyVal :=
  safe_string (astypeStr v)

/-- `int(v) if pd.notna(v) and v is not None else None`
(`import_data.py` lines 207-208, 410). -/
def toIntOpt : PyVal → Option Int
  | .pint n => some n
  | _ => none

/-- `pd.to_datetime(v, errors='coerce').dt.date` on one cell: dates pass
through, everything else coerces to `NaT`, which `df.where(pd.notnull ...)`
then turns into `None` (`import_data.py` lines 291-295). -/
def coerceDate : PyVal → PyVal
  | .pdate d => .pdate d
  | _ => .pnone

section TableAlgebra

variable {α κ : Type} [DecidableEq κ] (key : α → κ)

/-- `session.merge` keyed by the primary key `key`: replace the row with the
same key in place, or append a new row. -/
def upsert (t : List α) (r : α) : List α :=
  if ∃ x ∈ t, key x = key r then
    t.map fun x => if key x = key r then r else x
  else
    t ++ [r]

/-- A loop of `session.merge` calls over source rows. -/
def load (t : List α) (rs : List α) : List α :=
  rs.foldl (upsert key) t

/-- Worker for `dedupBy`: drop any row whose key was already seen. -/
def dedupByGo (seen : List κ) : List α → List α
  | [] => []
  | r :: rs =>
    if key r ∈ seen then dedupByGo seen rs
    else r :: dedupByGo (key r :: seen) rs

/-- `df.drop_duplicates(subset=[key], keep='first')`: keep the first row of
each key, preserving order. -/
def dedupBy (l : List α) : List α :=
  dedupByGo key [] l

/-- The table has no two rows with the same key. -/
def keysNodup (t : List α) : Prop :=
  (t.map key).Nodup

theorem load_nil (t : List α) : load key t [] = t := rfl

theorem load_cons (t : List α) (r : α) (rs : List α) :
    load key t (r :: rs) = load key (upsert key t r) rs := rfl

theorem upsert_keyElems (t : List α) (r : α) :
    ∀ x ∈ upsert key t r, key x = key r → x = r := by
  intro x hx hk
  unfold upsert at hx
  by_cases h : ∃ y ∈ t, key y = key r
  · rw [if_pos h] at hx
    obtain ⟨y, hy, hfy⟩ := List.mem_map.mp hx
    by_cases hky : key y = key r
    · rw [if_pos hky] at hfy
      exact hfy.symm
    · rw [if_neg hky] at hfy
      subst hfy
      exact absurd hk hky
  · rw [if_neg h] at hx
    rcases List.mem_append.mp hx with h1 | h2
    · exact absurd ⟨x, h1, hk⟩ h
    · simpa using h2

theorem hasKey_upsert_self (t : List α) (r : α) :
    ∃ x ∈ upsert key t r, key x = key r := by
  unfold upsert
  by_cases h : ∃ y ∈ t, key y = key r
  · rw [if_pos h]
    obtain ⟨y, hy, hky⟩ := h
    exact ⟨r, List.mem_map.mpr ⟨y, hy, by rw [if_pos hky]⟩, rfl⟩
  · rw [if_neg h]
    exact ⟨r, List.mem_append.mpr (Or.inr (by simp)), rfl⟩

theorem hasKey_upsert_mono (t : List α) (r : α) (k : κ)
    (h : ∃ x ∈ t, key x = k) : ∃ x ∈ upsert key t r, key x = k := by
  unfold upsert
  obtain ⟨x, hx, hk⟩ := h
  by_cases hc : ∃ y ∈ t, key y = key r
  · rw [if_pos hc]
    by_cases hxr : key x = key r
    · exact ⟨r, List.mem_map.mpr ⟨x, hx, by rw [if_pos hxr]⟩, hxr.symm.trans hk⟩
    · exact ⟨x, List.mem_map.mpr ⟨x, hx, by rw [if_neg hxr]⟩, hk⟩
  · rw [if_neg hc]
    exact ⟨x, List.mem_append.mpr (Or.inl hx), hk⟩

theorem hasKey_load_mono (rs : List α) :
    ∀ (t : List α) (k : κ), (∃ x ∈ t, key x = k) →
      ∃ x ∈ load key t rs, key x = k := by
  induction rs with
  | nil => intro t k h; exact h
  | cons r rs ih =>
    intro t k h
    exact ih _ _ (hasKey_upsert_mono key t r k h)

theorem upsert_keyElems_pres (t : List α) (s : α) (k : κ) (r : α)
    (hks : key s ≠ k) (ht : ∀ x ∈ t, key x = k → x = r) :
    ∀ x ∈ upsert key t s, key x = k → x = r := by
  intro x hx hk
  unfold upsert at hx
  by_cases hc : ∃ y ∈ t, key y = key s
  · rw [if_pos hc] at hx
    obtain ⟨y, hy, hfy⟩ := List.mem_map.mp hx
    by_cases hky : key y = key s
    · rw [if_pos hky] at hfy
      subst hfy
      exact absurd hk hks
    · rw [if_neg hky] at hfy
      subst hfy
      exact ht _ hy hk
  · rw [if_neg hc] at hx
    rcases List.mem_append.mp hx with h1 | h2
    · exact ht _ h1 hk
    · simp only [List.mem_singleton] at h2
      subst h2
      exact absurd hk hks

theorem load_keyElems_pres (rs : List α) :
    ∀ (t : List α) (k : κ) (r : α), (∀ s ∈ rs, key s ≠ k) →
      (∀ x ∈ t, key x = k → x = r) →
      ∀ x ∈ load key t rs, key x = k → x = r := by
  induction rs with
  | nil => intro t k r _ ht; exact ht
  | cons s rs ih =>
    intro t k r hrs ht
    exact ih _ _ _ (fun a ha => hrs a (List.mem_cons_of_mem _ ha))
      (upsert_keyElems_pres key t s k r (hrs s (List.mem_cons_self s rs)) ht)

theorem upsert_eq_self (t : List α) (r : α)
    (hp : ∃ x ∈ t, key x = key r) (hall : ∀ x ∈ t, key x = key r → x = r) :
    upsert key t r = t := by
  unfold upsert
  rw [if_pos hp]
  have h : t.map (fun x => if key x = key r then r else x) = t.map id :=
    List.map_congr_left (by
      intro x hx
      by_cases h : key x = key r
      · rw [if_pos h]
        exact (hall x hx h).symm
      · rw [if_neg h]
        rfl)
  simpa using h

/-- Two tables with pointwise equal keys that may differ only at rows whose
key is `k`. -/
def keyExc (k : κ) (x y : α) : Prop :=
  key x = key y ∧ (x = y ∨ key x = k)

theorem forall2_hasKey (k : κ) {T T' : List α}
    (h : List.Forall₂ (keyExc key k) T T') (j : κ) :
    (∃ x ∈ T, key x = j) ↔ ∃ x ∈ T', key x = j := by
  induction h with
  | nil => simp
  | @cons a b l1 l2 hab _ ih =>
    simp only [List.mem_cons]
    constructor
    · rintro ⟨x, rfl | hx, hk⟩
      · exact ⟨b, Or.inl rfl, hab.1 ▸ hk⟩
      · obtain ⟨y, hy, hky⟩ := ih.mp ⟨x, hx, hk⟩
        exact ⟨y, Or.inr hy, hky⟩
    · rintro ⟨x, rfl | hx, hk⟩
      · exact ⟨a, Or.inl rfl, hab.1.symm ▸ hk⟩
      · obtain ⟨y, hy, hky⟩ := ih.mpr ⟨x, hx, hk⟩
        exact ⟨y, Or.inr hy, hky⟩

theorem forall2_eq_of_not_hasKey (k : κ) {T T' : List α}
    (h : List.Forall₂ (keyExc key k) T T') (hn : ¬∃ x ∈ T, key x = k) :
    T = T' := by
  induction h with
  | nil => rfl
  | @cons a b l1 l2 hab _ ih =>
    have ha : a = b := by
      rcases hab.2 with h1 | h1
      · exact h1
      · exact absurd ⟨a, List.mem_cons_self a l1, h1⟩ hn
    have : ¬∃ x ∈ l1, key x = k := by
      rintro ⟨x, hx, hk⟩
      exact hn ⟨x, List.mem_cons_of_mem _ hx, hk⟩
    rw [ha, ih this]

theorem forall2_map_rel {R S : α → α → Prop} {f g : α → α} {T T' : List α}
    (h : List.Forall₂ R T T') (pres : ∀ x y, R x y → S (f x) (g y)) :
    List.Forall₂ S (T.map f) (T'.map g) := by
  induction h with
  | nil => simp
  | cons hab _ ih =>
    simp only [List.map_cons]
    exact List.Forall₂.cons (pres _ _ hab) ih

theorem forall2_map_eq {R : α → α → Prop} {f g : α → α} {T T' : List α}
    (h : List.Forall₂ R T T') (hf : ∀ x y, R x y → f x = g y) :
    T.map f = T'.map g := by
  induction h with
  | nil => rfl
  | cons hab _ ih =>
    simp only [List.map_cons, ih, hf _ _ hab]

theorem forall2_append_rel {R : α → α → Prop} {T T' U U' : List α}
    (h : List.Forall₂ R T T') (h' : List.Forall₂ R U U') :
    List.Forall₂ R (T ++ U) (T' ++ U') := by
  induction h with
  | nil => exact h'
  | cons hab _ ih =>
    simp only [List.cons_append]
    exact List.Forall₂.cons hab ih

theorem forall2_map_left {S : α → α → Prop} {f : α → α} {T : List α}
    (h : ∀ x ∈ T, S (f x) x) : List.Forall₂ S (T.map f) T := by
  induction T with
  | nil => simp
  | cons a l ih =>
    simp only [List.map_cons]
    exact List.Forall₂.cons (h a (List.mem_cons_self a l))
      (ih fun x hx => h x (List.mem_cons_of_mem _ hx))

theorem upsert_eq_upsert_of_forall2 (k : κ) (s : α) {T T' : List α}
    (h : List.Forall₂ (keyExc key k) T T') (hs : key s = k) :
    upsert key T s = upsert key T' s := by
  subst hs
  by_cases hp : ∃ x ∈ T, key x = key s
  · unfold upsert
    rw [if_pos hp, if_pos ((forall2_hasKey key (key s) h (key s)).mp hp)]
    exact forall2_map_eq h (by
      intro x y hxy
      rcases hxy.2 with h1 | h1
      · rw [h1]
      · rw [if_pos h1, if_pos (hxy.1 ▸ h1)])
  · rw [forall2_eq_of_not_hasKey key (key s) h hp]

theorem forall2_upsert (k : κ) (s : α) {T T' : List α}
    (h : List.Forall₂ (keyExc key k) T T') (hs : key s ≠ k) :
    List.Forall₂ (keyExc key k) (upsert key T s) (upsert key T' s) := by
  unfold upsert
  by_cases hp : ∃ x ∈ T, key x = key s
  · rw [if_pos hp, if_pos ((forall2_hasKey key k h (key s)).mp hp)]
    exact forall2_map_rel h (by
      intro x y hxy
      by_cases hx : key x = key s
      · rw [if_pos hx, if_pos (hxy.1 ▸ hx)]
        exact ⟨rfl, Or.inl rfl⟩
      · rw [if_neg hx, if_neg (hxy.1 ▸ hx)]
        exact hxy)
  · rw [if_neg hp, if_neg (fun hc => hp ((forall2_hasKey key k h (key s)).mpr hc))]
    exact forall2_append_rel h (List.Forall₂.cons ⟨rfl, Or.inl rfl⟩ List.Forall₂.nil)

theorem load_eq_of_forall2 (k : κ) (rs : List α) :
    ∀ {T T' : List α}, List.Forall₂ (keyExc key k) T T' →
      (∃ s ∈ rs, key s = k) → load key T rs = load key T' rs := by
  induction rs with
  | nil =>
    intro T T' _ h
    simp at h
  | cons s rs ih =>
    intro T T' h hex
    by_cases hs : key s = k
    · rw [load_cons, load_cons, upsert_eq_upsert_of_forall2 key k s h hs]
    · rw [load_cons, load_cons]
      have hex' : ∃ x ∈ rs, key x = k := by
        rcases hex with ⟨x, hx, hk⟩
        rcases List.mem_cons.mp hx with rfl | hx'
        · exact absurd hk hs
        · exact ⟨x, hx', hk⟩
      exact ih (forall2_upsert key k s h hs) hex'

theorem forall2_upsert_self (r : α) {T : List α}
    (hp : ∃ x ∈ T, key x = key r) :
    List.Forall₂ (keyExc key (key r)) (upsert key T r) T := by
  unfold upsert
  rw [if_pos hp]
  exact forall2_map_left (by
    intro x _
    by_cases h : key x = key r
    · rw [if_pos h]
      exact ⟨h.symm, Or.inr rfl⟩
    · rw [if_neg h]
      exact ⟨rfl, Or.inl rfl⟩)

theorem keysNodup_upsert (t : List α) (r : α) (h : keysNodup key t) :
    keysNodup key (upsert key t r) := by
  unfold keysNodup upsert at *
  by_cases hc : ∃ x ∈ t, key x = key r
  · rw [if_pos hc, List.map_map]
    have heq : t.map (key ∘ fun x => if key x = key r then r else x) = t.map key :=
      List.map_congr_left (by
        intro x _
        by_cases hxr : key x = key r
        · simp [Function.comp, hxr]
        · simp [Function.comp, hxr])
    rw [heq]
    exact h
  · rw [if_neg hc, List.map_append]
    rw [List.nodup_append]
    refine ⟨h, by simp, ?_⟩
    intro j hj hj'
    simp only [List.map_cons, List.map_nil, List.mem_singleton] at hj'
    obtain ⟨x, hx, hkx⟩ := List.mem_map.mp hj
    exact hc ⟨x, hx, by rw [hkx, hj']⟩

theorem keysNodup_load (rs : List α) :
    ∀ t : List α, keysNodup key t → keysNodup key (load key t rs) := by
  induction rs with
  | nil => intro t h; exact h
  | cons r rs ih =>
    intro t h
    exact ih _ (keysNodup_upsert key t r h)

/-- Re-running a loop of merges with the same source rows over the table it
produced changes nothing (idempotence of the upsert load). -/
theorem load_load (rs : List α) :
    ∀ t : List α, keysNodup key t →
      load key (load key t rs) rs = load key t rs := by
  induction rs with
  | nil => intro t _; rfl
  | cons r rs ih =>
    intro t ht
    rw [load_cons, load_cons]
    have hpres : ∃ x ∈ load key (upsert key t r) rs, key x = key r :=
      hasKey_load_mono key rs (upsert key t r) (key r) (hasKey_upsert_self key t r)
    by_cases hL : ∃ s ∈ rs, key s = key r
    · calc load key (upsert key (load key (upsert key t r) rs) r) rs
          = load key (load key (upsert key t r) rs) rs :=
            load_eq_of_forall2 key (key r) rs (forall2_upsert_self key r hpres) hL
        _ = load key (upsert key t r) rs :=
            ih _ (keysNodup_upsert key t r ht)
    · have hall : ∀ x ∈ load key (upsert key t r) rs, key x = key r → x = r :=
        load_keyElems_pres key rs (upsert key t r) (key r) r
          (by push_neg at hL; exact hL) (upsert_keyElems key t r)
      rw [upsert_eq_self key _ r hpres hall]
      exact ih _ (keysNodup_upsert key t r ht)

end TableAlgebra

namespace Scolarite

/-!
Name resolution between the two modules (C2).  `import_data.py` lines 13-18
pull these names from `models`; `models.py` defines the classes listed in
`modelsDefinedClasses`.
-/

/-- The class names defined in `models.py`. -/
def modelsDefinedClasses : List String :=
  ["Institution", "Composante", "Domaine", "Mention", "Parcours",
   "Cycle", "Niveau", "Semestre", "UniteEnseignement", "ElementConstitutif",
   "SessionExamen", "ModeInscription", "TypeFormation",
   "AnneeUniversitaire", "Etudiant", "Inscription", "ResultatSemestre",
   "ResultatUE", "Note", "SuiviCreditCycle", "Enseignant",
   "TypeEnseignement", "VolumeHoraireEC", "AffectationEC", "Jury", "Base"]

/-- The names `import_data.py` (lines 13-18) imports from `models`. -/
def importDataModelsImports : List String :=
  ["Institution", "Composante", "Domaine", "Mention", "Parcours",
   "AnneeUniversitaire", "Etudiant", "Inscription",
   "Cycle", "Niveau", "Semestre", "TypeInscription", "SessionExamen"]

/-!
Schema records (`models.py`).  Each structure lists the mapped columns the
loader touches; the key function is the primary key used by
`session.merge`.
-/

/-- `models.Institution` (primary key `id_institution`). -/
structure Institution where
  idInstitution : PyVal
  nom : PyVal
  typeInstitution : PyVal
deriving DecidableEq, Repr

/-- `models.Composante` (primary key `code`). -/
structure Composante where
  code : PyVal
  label : PyVal
  idInstitution : PyVal
deriving DecidableEq, Repr

/-- `models.Domaine` (primary key `code`). -/
structure Domaine where
  code : PyVal
  label : PyVal
deriving DecidableEq, Repr

/-- `models.Mention` (primary key `id_mention`). -/
structure Mention where
  idMention : PyVal
  codeMention : PyVal
  label : PyVal
  composanteCode : PyVal
  domaineCode : PyVal
deriving DecidableEq, Repr

/-- `models.Parcours` (primary key `id_parcours`). -/
structure Parcours where
  idParcours : PyVal
  codeParcours : PyVal
  label : PyVal
  mentionId : PyVal
  dateCreation : Option Int
  dateFin : Option Int
deriving DecidableEq, Repr

/-- `models.Cycle` (primary key `code`). -/
structure Cycle where
  code : String
  label : String
deriving DecidableEq, Repr

/-- `models.Niveau` (primary key `code`). -/
structure Niveau where
  code : String
  label : String
  cycleCode : String
deriving DecidableEq, Repr

/-- `models.Semestre` (primary key `code_semestre`). -/
structure Semestre where
  codeSemestre : String
  numeroSemestre : String
  niveauCode : String
deriving DecidableEq, Repr

/-- `models.ModeInscription` (table `modes_inscription`, primary key `code`).
This is the class the seeder's `TypeInscription(**data)` calls were written
for before the rename recorded in `models.py` lines 195-204. -/
structure ModeInscription where
  code : String
  label : String
deriving DecidableEq, Repr

/-- `models.SessionExamen` (primary key `code_session`). -/
structure SessionExamen where
  codeSession : String
  label : String
deriving DecidableEq, Repr

/-- `models.AnneeUniversitaire` (primary key `annee`).  The model also
declares `ordre_annee` as NOT NULL, but `_import_annees_universitaires`
never sets it; the embedding is constraint-free, so this slip is recorded
here rather than enforced. -/
structure AnneeUniversitaire where
  annee : PyVal
deriving DecidableEq, Repr

/-- `models.Etudiant` (primary key `code_etudiant`). -/
structure Etudiant where
  codeEtudiant : PyVal
  numeroInscription : PyVal
  nom : PyVal
  prenoms : PyVal
  sexe : PyVal
  naissanceDate : PyVal
  naissanceLieu : PyVal
  nationalite : PyVal
  baccAnnee : Option Int
  baccSerie : PyVal
  baccCentre : PyVal
  adresse : PyVal
  telephone : PyVal
  mail : PyVal
  cin : PyVal
  cinDate : PyVal
  cinLieu : PyVal
deriving DecidableEq, Repr

/-- `models.Inscription` (primary key `code_inscription`).  The mapped
enrollment-type column is `code_mode_inscription` (NOT NULL, no default);
`code_type_formation` defaults to `'FI'`. -/
structure Inscription where
  codeInscription : PyVal
  codeEtudiant : PyVal
  anneeUniversitaire : PyVal
  idParcours : PyVal
  codeSemestre : PyVal
  codeModeInscription : PyVal
  codeTypeFormation : PyVal
  creditAcquisSemestre : Int
  isSemestreValide : Bool
deriving DecidableEq, Repr

def cycleKey (c : Cycle) : String := c.code

def niveauKey (n : Niveau) : String := n.code

def semestreKey (s : Semestre) : String := s.codeSemestre

def modeKey (m : ModeInscription) : String := m.code

def sessionKey (s : SessionExamen) : String := s.codeSession

def instKey (i : Institution) : PyVal := i.idInstitution

def compKey (c : Composante) : PyVal := c.code

def domKey (d : Domaine) : PyVal := d.code

def mentionKey (m : Mention) : PyVal := m.idMention

def parcoursKey (p : Parcours) : PyVal := p.idParcours

def anneeKey (a : AnneeUniversitaire) : PyVal := a.annee

def etuKey (e : Etudiant) : PyVal := e.codeEtudiant

def insKey (i : Inscription) : PyVal := i.codeInscription

/-- The relational state: one list of rows per table the pipeline writes. -/
@[ext]
structure DB where
  cycles : List Cycle
  niveaux : List Niveau
  semestres : List Semestre
  modesInscription : List ModeInscription
  sessionsExamen : List SessionExamen
  institutions : List Institution
  composantes : List Composante
  domaines : List Domaine
  mentions : List Mention
  parcours : List Parcours
  annees : List AnneeUniversitaire
  etudiants : List Etudiant
  inscriptions : List Inscription
deriving DecidableEq, Repr

def emptyDB : DB :=
  ⟨[], [], [], [], [], [], [], [], [], [], [], [], []⟩

/-- Every table of the state is free of duplicate natural keys. -/
def dbKeysNodup (db : DB) : Prop :=
  keysNodup cycleKey db.cycles ∧ keysNodup niveauKey db.niveaux ∧
  keysNodup semestreKey db.semestres ∧ keysNodup modeKey db.modesInscription ∧
  keysNodup sessionKey db.sessionsExamen ∧ keysNodup instKey db.institutions ∧
  keysNodup compKey db.composantes ∧ keysNodup domKey db.domaines ∧
  keysNodup mentionKey db.mentions ∧ keysNodup parcoursKey db.parcours ∧
  keysNodup anneeKey db.annees ∧ keysNodup etuKey db.etudiants ∧
  keysNodup insKey db.inscriptions

/-!
Reference seeder (`import_fixed_references`, `import_data.py` lines 41-102).
The seeder's enrollment-type merges are written against the imported name
`TypeInscription`; the class they target is `models.ModeInscription`.
-/

def cyclesSeed : List Cycle :=
  [⟨"L", "Licence"⟩, ⟨"M", "Master"⟩, ⟨"D", "Doctorat"⟩]

/-- `niveau_semestre_map` (`import_data.py` lines 57-66). -/
def niveauSemestreMap : List (String × String × List String) :=
  [("L1", ("L", ["S01", "S02"])), ("L2", ("L", ["S03", "S04"])),
   ("L3", ("L", ["S05", "S06"])), ("M1", ("M", ["S07", "S08"])),
   ("M2", ("M", ["S09", "S10"])), ("D1", ("D", ["S11", "S12"])),
   ("D2", ("D", ["S13", "S14"])), ("D3", ("D", ["S15", "S16"]))]

def niveauxSeed : List Niveau :=
  niveauSemestreMap.map fun p => ⟨p.1, p.1, p.2.1⟩

/-- The composite semester codes `f"{niv_code}_{sem_num}"` built by the
seeder loop. -/
def semestresSeed : List Semestre :=
  niveauSemestreMap.flatMap fun p =>
    p.2.2.map fun s => ⟨p.1 ++ "_" ++ s, s, p.1⟩

def typesInscriptionSeed : List ModeInscription :=
  [⟨"CLAS", "Classique"⟩, ⟨"HYB", "Hybride"⟩]

def sessionsExamenSeed : List SessionExamen :=
  [⟨"N", "Normale"⟩, ⟨"R", "Rattrapage"⟩]

/-- `import_fixed_references`: merge all fixed reference rows, then commit. -/
def importFixedReferences (db : DB) : DB :=
  { db with
    cycles := load cycleKey db.cycles cyclesSeed
    niveaux := load niveauKey db.niveaux niveauxSeed
    semestres := load semestreKey db.semestres semestresSeed
    modesInscription := load modeKey db.modesInscription typesInscriptionSeed
    sessionsExamen := load sessionKey db.sessionsExamen sessionsExamenSeed }

/-!
Input files.  Rows carry the canonical lower-cased underscore column names
produced by `df.columns.str.lower().str.replace(' ', '_')`; missing cells
are `pnone` after `df.where(pd.notnull(df), None)`.  The historical alias
renames of `_load_and_clean_inscriptions` (`id_parcours_caractere`,
`semestre_id`/`semestre`, `niveau`, `type_formation`) are taken as already
applied: a `World` provides rows under the canonical names.
-/

/-- A row of the institutions spreadsheet (`config.INSTITUTION_FILE_PATH`). -/
structure InstFileRow where
  institution_id : PyVal
  institution_nom : PyVal
  institution_type : PyVal
deriving DecidableEq, Repr

/-- A row of the academic-metadata spreadsheet (`config.METADATA_FILE_PATH`). -/
structure MetaFileRow where
  composante : PyVal
  label_composante : PyVal
  institution_id : PyVal
  domaine : PyVal
  label_domaine : PyVal
  mention : PyVal
  label_mention : PyVal
  id_mention : PyVal
  id_parcours : PyVal
  parcours : PyVal
  label_parcours : PyVal
  date_creation : PyVal
  date_fin : PyVal
deriving DecidableEq, Repr

/-- A row of the enrollments spreadsheet (`config.INSCRIPTION_FILE_PATH`).
`label` is the dataframe index label (`row.name` / the `index` of
`iterrows`), which survives `dropna` with gaps. -/
structure InsFileRow where
  label : Nat
  code_inscription : PyVal
  code_etudiant : PyVal
  annee_universitaire : PyVal
  id_parcours : PyVal
  code_semestre : PyVal
  niveau_code : PyVal
  code_type_inscription : PyVal
  numero_inscription : PyVal
  nom : PyVal
  prenoms : PyVal
  sexe : PyVal
  naissance_date : PyVal
  naissance_lieu : PyVal
  nationalite : PyVal
  bacc_annee : PyVal
  bacc_serie : PyVal
  bacc_centre : PyVal
  adresse : PyVal
  telephone : PyVal
  mail : PyVal
  cin : PyVal
  cin_date : PyVal
  cin_lieu : PyVal
deriving DecidableEq, Repr

/-- The three input spreadsheets of one run; `none` is an unreadable file
(missing or unparsable), which makes the corresponding `pd.read_excel`
raise. -/
structure World where
  institutionsFile : Option (List InstFileRow)
  metadataFile : Option (List MetaFileRow)
  inscriptionsFile : Option (List InsFileRow)
deriving DecidableEq, Repr

/-- An entry of the `import_errors.log` diagnostics file: entity kind,
natural key, source row locator (`LIGNE_EXCEL_IDX`), failure cause. -/
structure LogEntry where
  entity : String
  key : PyVal
  locator : Nat
  cause : String
deriving DecidableEq, Repr

/-- `logging.basicConfig(filename='import_errors.log', filemode='w', ...)`
(`import_data.py` lines 21-25): the file mode the log file is opened with
at the start of every run. -/
def loggingFilemode : String := "w"

/-- The contents of `import_errors.log` right after a new run has configured
logging: kept only if the file were opened in append mode. -/
def newRunLogInit (prev : List LogEntry) : List LogEntry :=
  if loggingFilemode = "a" then prev else []

/-!
Institutions stage (`_import_institutions`, lines 109-135).
-/

/-- Line 117: `df_inst['institution_id'].astype(str).apply(safe_string)`. -/
def cleanInstRow (r : InstFileRow) : InstFileRow :=
  { r with institution_id := cleanKey r.institution_id }

/-- Line 118: `drop_duplicates(subset=['institution_id']).dropna(subset=['institution_id'])`. -/
def instPrep (rows : List InstFileRow) : List InstFileRow :=
  (dedupBy (fun r => r.institution_id) (rows.map cleanInstRow)).filter
    fun r => r.institution_id.notna

/-- Lines 121-126: the merged `Institution` row. -/
def mkInstitution (r : InstFileRow) : Institution :=
  { idInstitution := r.institution_id
    nom := safe_string r.institution_nom
    typeInstitution := safe_string r.institution_type }

def importInstitutionsDb (db : DB) (rows : List InstFileRow) : DB :=
  { db with institutions := load instKey db.institutions ((instPrep rows).map mkInstitution) }

/-!
Metadata loading and cleaning (`_load_and_clean_metadata`, lines 221-240)
and the four dependent hierarchy loaders.
-/

/-- Lines 230-234: clean the five key columns with `astype(str).apply(safe_string)`. -/
def cleanMetaRow (r : MetaFileRow) : MetaFileRow :=
  { r with
    institution_id := cleanKey r.institution_id
    composante := cleanKey r.composante
    domaine := cleanKey r.domaine
    id_mention := cleanKey r.id_mention
    id_parcours := cleanKey r.id_parcours }

def loadAndCleanMetadata (w : World) : Option (List MetaFileRow) :=
  match w.metadataFile with
  | none => none
  | some rows => some (rows.map cleanMetaRow)

/-- Line 145: `drop_duplicates(subset=['composante']).dropna(subset=['composante', 'institution_id'])`. -/
def composantesPrep (m : List MetaFileRow) : List MetaFileRow :=
  (dedupBy (fun r => r.composante) m).filter
    fun r => r.composante.notna && r.institution_id.notna

def mkComposante (r : MetaFileRow) : Composante :=
  { code := r.composante
    label := safe_string r.label_composante
    idInstitution := r.institution_id }

def importComposantesDb (db : DB) (m : List MetaFileRow) : DB :=
  { db with composantes := load compKey db.composantes ((composantesPrep m).map mkComposante) }

/-- Line 163: `drop_duplicates(subset=['domaine']).dropna(subset=['domaine'])`. -/
def domainesPrep (m : List MetaFileRow) : List MetaFileRow :=
  (dedupBy (fun r => r.domaine) m).filter fun r => r.domaine.notna

def mkDomaine (r : MetaFileRow) : Domaine :=
  { code := r.domaine, label := safe_string r.label_domaine }

def importDomainesDb (db : DB) (m : List MetaFileRow) : DB :=
  { db with domaines := load domKey db.domaines ((domainesPrep m).map mkDomaine) }

/-- Line 176: `drop_duplicates(subset=['id_mention']).dropna(subset=['id_mention', 'composante', 'domaine', 'mention'])`. -/
def mentionsPrep (m : List MetaFileRow) : List MetaFileRow :=
  (dedupBy (fun r => r.id_mention) m).filter fun r =>
    r.id_mention.notna && r.composante.notna && r.domaine.notna && r.mention.notna

def mkMention (r : MetaFileRow) : Mention :=
  { idMention := r.id_mention
    codeMention := safe_string r.mention
    label := safe_string r.label_mention
    composanteCode := r.composante
    domaineCode := r.domaine }

def importMentionsDb (db : DB) (m : List MetaFileRow) : DB :=
  { db with mentions := load mentionKey db.mentions ((mentionsPrep m).map mkMention) }

/-- Line 200: `drop_duplicates(subset=['id_parcours'], keep='first').dropna(subset=['id_parcours', 'id_mention', 'parcours'])`. -/
def parcoursPrep (m : List MetaFileRow) : List MetaFileRow :=
  (dedupBy (fun r => r.id_parcours) m).filter fun r =>
    r.id_parcours.notna && r.id_mention.notna && r.parcours.notna

def mkParcours (r : MetaFileRow) : Parcours :=
  { idParcours := r.id_parcours
    codeParcours := safe_string r.parcours
    label := safe_string r.label_parcours
    mentionId := r.id_mention
    dateCreation := toIntOpt r.date_creation
    dateFin := toIntOpt r.date_fin }

def importParcoursDb (db : DB) (m : List MetaFileRow) : DB :=
  { db with parcours := load parcoursKey db.parcours ((parcoursPrep m).map mkParcours) }

/-- `import_metadata_to_db` (lines 246-275): institutions first (that helper
commits its own work and returns `False` on an unreadable file, upon which
the stage returns early); then the metadata file; then the four dependent
loaders and a commit.  The returned flag is whether the stage ran to
completion. -/
def importMetadataToDb (w : World) (db : DB) : DB × Bool :=
  match w.institutionsFile with
  | none => (db, false)
  | some iRows =>
    let db1 := importInstitutionsDb db iRows
    match loadAndCleanMetadata w with
    | none => (db1, false)
    | some m =>
      (importParcoursDb (importMentionsDb (importDomainesDb
        (importComposantesDb db1 m) m) m) m, true)

/-!
Enrollment-file cleaning (`_load_and_clean_inscriptions`, lines 282-368).
-/

/-- The composite-key synthesis lambda of lines 324-332.  Both columns have
just been passed through `astype(str).apply(safe_string)` (lines 319 and
323), so the lambda's `pd.notna(row.get('niveau_code'))` test is always
true on a string and the Python truthiness of `code_semestre` is
non-emptiness. -/
def enrichSemestre (niveauCode : String) (codeSemestre : String) : String :=
  if codeSemestre != "" && !(pyInStr '_' codeSemestre) then
    niveauCode ++ "_" ++ codeSemestre
  else
    codeSemestre

/-- Lines 348-351: `.str.upper().replace({'CLASSIQUE': 'CLAS', 'HYBRIDE': 'HYB'})`. -/
def replaceTypeInscription (s : String) : String :=
  if s = "CLASSIQUE" then "CLAS" else if s = "HYBRIDE" then "HYB" else s

/-- The whole type-column treatment: line 348 `astype(str).str.upper().replace`,
then line 355 `astype(str).apply(safe_string)` (the second `astype` is the
identity on an already-string column). -/
def stdTypeInscription (v : PyVal) : PyVal :=
  safe_string (.pstr (replaceTypeInscription (pyUpper (astypeStr v).asStr)))

/-- One row after `_load_and_clean_inscriptions`: date coercion (lines
291-293), `id_parcours` cleaning (line 302), `code_semestre` cleaning (line
319) and enrichment with `niveau_code` (lines 323-332), enrollment-type
standardization (lines 348-355). -/
def cleanInsRow (r : InsFileRow) : InsFileRow :=
  { r with
    naissance_date := coerceDate r.naissance_date
    cin_date := coerceDate r.cin_date
    id_parcours := cleanKey r.id_parcours
    niveau_code := cleanKey r.niveau_code
    code_semestre :=
      .pstr (enrichSemestre (cleanKey r.niveau_code).asStr
        (cleanKey r.code_semestre).asStr)
    code_type_inscription := stdTypeInscription r.code_type_inscription }

def loadAndCleanInscriptions (w : World) : Option (List InsFileRow) :=
  match w.inscriptionsFile with
  | none => none
  | some rows => some (rows.map cleanInsRow)

/-!
Academic years (`_import_annees_universitaires`, lines 371-382).
-/

/-- Line 378: `df['annee_universitaire'].drop_duplicates().dropna()`, then
one `merge(AnneeUniversitaire(annee=safe_string(annee)))` per value. -/
def anneesList (rows : List InsFileRow) : List AnneeUniversitaire :=
  (((dedupBy (fun v : PyVal => v) (rows.map fun r => r.annee_universitaire)).filter
    PyVal.notna).map fun a => ⟨safe_string a⟩)

def importAnneesDb (db : DB) (rows : List InsFileRow) : DB :=
  { db with annees := load anneeKey db.annees (anneesList rows) }

/-!
Students (`_import_etudiants`, lines 385-431): per-row merge plus commit,
with rollback, an error count, and a structured log entry on failure.  The
database's accept/reject decision for one committed row is an oracle
`verdict` (`none` = committed, `some msg` = raises with message `msg`).
-/

/-- Line 390: `drop_duplicates(subset=['code_etudiant']).dropna(subset=['code_etudiant', 'nom'])`. -/
def etuPrep (rows : List InsFileRow) : List InsFileRow :=
  (dedupBy (fun r => r.code_etudiant) rows).filter
    fun r => r.code_etudiant.notna && r.nom.notna

/-- Lines 397-419: the merged `Etudiant` row. -/
def mkEtudiant (r : InsFileRow) : Etudiant :=
  { codeEtudiant := safe_string r.code_etudiant
    numeroInscription := safe_string r.numero_inscription
    nom := safe_string r.nom
    prenoms := safe_string r.prenoms
    sexe := safe_string r.sexe
    naissanceDate := if r.naissance_date.isDate then r.naissance_date else .pnone
    naissanceLieu := safe_string r.naissance_lieu
    nationalite := safe_string r.nationalite
    baccAnnee := toIntOpt r.bacc_annee
    baccSerie := safe_string r.bacc_serie
    baccCentre := safe_string r.bacc_centre
    adresse := safe_string r.adresse
    telephone := safe_string r.telephone
    mail := safe_string r.mail
    cin := safe_string r.cin
    cinDate := if r.cin_date.isDate then r.cin_date else .pnone
    cinLieu := safe_string r.cin_lieu }

/-- The log entry of line 429:
`ETUDIANT: {code_etudiant} | Erreur: ... | LIGNE_EXCEL_IDX: {row.name}`. -/
def mkEtuFailEntry (verdict : Etudiant → Option String) (r : InsFileRow) : LogEntry :=
  ⟨"ETUDIANT", r.code_etudiant, r.label, (verdict (mkEtudiant r)).getD ""⟩

structure EtuState where
  tbl : List Etudiant
  errors : Nat
  log : List LogEntry
deriving DecidableEq, Repr

/-- One iteration of the student loop (lines 393-429): merge and commit the
row; on failure roll the row back, count it, and log it. -/
def etuStep (verdict : Etudiant → Option String) (st : EtuState) (r : InsFileRow) :
    EtuState :=
  let e := mkEtudiant r
  match verdict e with
  | none => { st with tbl := upsert etuKey st.tbl e }
  | some msg =>
    { st with
      errors := st.errors + 1
      log := st.log ++ [⟨"ETUDIANT", r.code_etudiant, r.label, msg⟩] }

def importEtudiants (verdict : Etudiant → Option String) (tbl0 : List Etudiant)
    (log0 : List LogEntry) (rows : List InsFileRow) : EtuState :=
  (etuPrep rows).foldl (etuStep verdict) ⟨tbl0, 0, log0⟩

/-!
Enrollments (`_import_inscriptions`, lines 434-489).
-/

/-- The keyword arguments of the `Inscription(...)` constructor call at
lines 447-454. -/
def inscriptionCallKwargs : List String :=
  ["code_inscription", "code_etudiant", "annee_universitaire",
   "id_parcours", "code_semestre", "code_type_inscription"]

/-- The attribute names SQLAlchemy's declarative constructor accepts for
`models.Inscription`: its mapped columns and relationships. -/
def inscriptionMappedAttrs : List String :=
  ["code_inscription", "code_etudiant", "annee_universitaire",
   "id_parcours", "code_semestre", "code_mode_inscription",
   "code_type_formation", "credit_acquis_semestre", "is_semestre_valide",
   "etudiant", "annee_univ", "parcours", "semestre", "mode_inscription",
   "type_formation"]

/-- Whether `Inscription(**kwargs)` constructs at all: every keyword must be
a mapped attribute, else the declarative constructor raises `TypeError`. -/
def insCtorOk : Bool :=
  inscriptionCallKwargs.all fun k => inscriptionMappedAttrs.contains k

/-- The record the constructor would build if its keywords were valid
(unreachable: `insCtorOk` is false because `code_type_inscription` is not
mapped; unset columns shown with their model defaults). -/
def mkInscription (r : InsFileRow) : Inscription :=
  { codeInscription := safe_string r.code_inscription
    codeEtudiant := safe_string r.code_etudiant
    anneeUniversitaire := safe_string r.annee_universitaire
    idParcours := r.id_parcours
    codeSemestre := safe_string r.code_semestre
    codeModeInscription := .pnone
    codeTypeFormation := .pstr "FI"
    creditAcquisSemestre := 0
    isSemestreValide := false }

/-- Line 438-439: `cles_requises` precondition filter via `dropna`. -/
def insRequired (r : InsFileRow) : Bool :=
  r.code_inscription.notna && r.code_etudiant.notna &&
  r.annee_universitaire.notna && r.id_parcours.notna &&
  r.code_semestre.notna && r.code_type_inscription.notna

/-- The log entry of line 476 for the `except Exception` branch. -/
def mkInsFailEntry (r : InsFileRow) : LogEntry :=
  ⟨"INSCRIPTION (Autre)", r.code_inscription, r.label,
   "TypeError: code_type_inscription is an invalid keyword argument for Inscription"⟩

structure InsState where
  committed : List Inscription
  pending : List Inscription
  errorsFk : Nat
  errorsUq : Nat
  errorsData : Nat
  errorsOther : Nat
  checkpoints : Nat
  attempted : Nat
  log : List LogEntry
deriving DecidableEq, Repr

/-- One iteration of the enrollment loop (lines 443-476): construct and
merge the row into the open transaction and commit when `(index + 1) % 500
== 0` (`index` is the dataframe label, not a processed-row counter); on
failure roll back to the last checkpoint, classify and count the error, and
log it.  The constructor raises `TypeError` (an invalid keyword), which the
`except Exception` branch counts as `errors_other`. -/
def insStep (st : InsState) (r : InsFileRow) : InsState :=
  if insCtorOk then
    let p := upsert insKey st.pending (mkInscription r)
    if (r.label + 1) % 500 == 0 then
      { st with pending := p, committed := p, checkpoints := st.checkpoints + 1 }
    else
      { st with pending := p }
  else
    { st with
      pending := st.committed
      errorsOther := st.errorsOther + 1
      log := st.log ++ [mkInsFailEntry r] }

/-- `_import_inscriptions`: filter on the required keys, loop, final commit
(lines 478-479). -/
def importInscriptions (committed0 : List Inscription) (log0 : List LogEntry)
    (rows : List InsFileRow) : InsState :=
  let att := rows.filter insRequired
  let st := att.foldl insStep
    ⟨committed0, committed0, 0, 0, 0, 0, 0, att.length, log0⟩
  { st with committed := st.pending }

def importInscriptionsDb (db : DB) (log0 : List LogEntry)
    (rows : List InsFileRow) : DB × InsState :=
  let st := importInscriptions db.inscriptions log0 rows
  ({ db with inscriptions := st.committed }, st)

/-- The outcome of the enrollment stage. -/
structure EnrResult where
  db : DB
  etuErrors : Nat
  ins : InsState
deriving DecidableEq, Repr

/-- `import_inscriptions_to_db` (lines 495-519): read and clean the file
(guard clause on an unreadable file), then years, students, enrollments. -/
def importInscriptionsToDb (w : World) (verdict : Etudiant → Option String)
    (db : DB) (log0 : List LogEntry) : EnrResult :=
  match loadAndCleanInscriptions w with
  | none =>
    { db := db, etuErrors := 0,
      ins := ⟨db.inscriptions, db.inscriptions, 0, 0, 0, 0, 0, 0, log0⟩ }
  | some rows =>
    let db1 := importAnneesDb db rows
    let est := importEtudiants verdict db1.etudiants log0 rows
    let db2 := { db1 with etudiants := est.tbl }
    let p := importInscriptionsDb db2 est.log rows
    { db := p.1, etuErrors := est.errors, ins := p.2 }

/-- The observable outcome of one full run. -/
structure RunResult where
  db : DB
  hierarchyOk : Bool
  enrollmentsStarted : Bool
  etuErrors : Nat
  insFk : Nat
  insUq : Nat
  insData : Nat
  insOther : Nat
  insAttempted : Nat
  insCheckpoints : Nat
  log : List LogEntry
deriving DecidableEq, Repr

/-- `import_all_data` (lines 526-553): configure logging (module import,
lines 21-25, truncating the log), seed the fixed references, run the
metadata stage, then run the enrollment stage.  The source calls
`import_inscriptions_to_db()` unconditionally after `import_metadata_to_db()`
returns (which it does even on failure, since it swallows its own errors),
so the enrollment stage is always started. -/
def runAllFrom (w : World) (verdict : Etudiant → Option String) (db0 : DB)
    (prevLog : List LogEntry) : RunResult :=
  let log0 := newRunLogInit prevLog
  let db1 := importFixedReferences db0
  let p := importMetadataToDb w db1
  let enr := importInscriptionsToDb w verdict p.1 log0
  { db := enr.db
    hierarchyOk := p.2
    enrollmentsStarted := true
    etuErrors := enr.etuErrors
    insFk := enr.ins.errorsFk
    insUq := enr.ins.errorsUq
    insData := enr.ins.errorsData
    insOther := enr.ins.errorsOther
    insAttempted := enr.ins.attempted
    insCheckpoints := enr.ins.checkpoints
    log := enr.ins.log }

/-!
Specifications of the two row-loop loaders as folds.
-/

/-- A student row is accepted by the database oracle. -/
def etuAccepted (verdict : Etudiant → Option String) (r : InsFileRow) : Bool :=
  (verdict (mkEtudiant r)).isNone

/-- A student row is rejected by the database oracle. -/
def etuRejected (verdict : Etudiant → Option String) (r : InsFileRow) : Bool :=
  (verdict (mkEtudiant r)).isSome

theorem etuFold_tbl (verdict : Etudiant → Option String) (L : List InsFileRow) :
    ∀ st : EtuState, (L.foldl (etuStep verdict) st).tbl =
      load etuKey st.tbl ((L.filter (etuAccepted verdict)).map mkEtudiant) := by
  induction L with
  | nil => intro st; rfl
  | cons r L ih =>
    intro st
    rw [List.foldl_cons, List.filter_cons]
    cases h : verdict (mkEtudiant r) with
    | none =>
      simp only [etuAccepted, h, Option.isNone_none, if_pos]
      rw [List.map_cons, load_cons, ih]
      simp only [etuStep, h]
    | some msg =>
      simp only [etuAccepted, h, Option.isNone_some, Bool.false_eq_true, if_neg,
        not_false_eq_true]
      rw [ih]
      simp only [etuStep, h]

theorem etuFold_errors (verdict : Etudiant → Option String) (L : List InsFileRow) :
    ∀ st : EtuState, (L.foldl (etuStep verdict) st).errors =
      st.errors + (L.filter (etuRejected verdict)).length := by
  induction L with
  | nil => intro st; rfl
  | cons r L ih =>
    intro st
    rw [List.foldl_cons, List.filter_cons]
    cases h : verdict (mkEtudiant r) with
    | none =>
      simp only [etuRejected, h, Option.isSome_none, Bool.false_eq_true, if_neg,
        not_false_eq_true]
      rw [ih]
      simp only [etuStep, h]
    | some msg =>
      simp only [etuRejected, h, Option.isSome_some, if_pos]
      rw [ih]
      simp only [etuStep, h, List.length_cons]
      omega

theorem etuFold_log (verdict : Etudiant → Option String) (L : List InsFileRow) :
    ∀ st : EtuState, (L.foldl (etuStep verdict) st).log =
      st.log ++ (L.filter (etuRejected verdict)).map (mkEtuFailEntry verdict) := by
  induction L with
  | nil => intro st; simp
  | cons r L ih =>
    intro st
    rw [List.foldl_cons, List.filter_cons]
    cases h : verdict (mkEtudiant r) with
    | none =>
      simp only [etuRejected, h, Option.isSome_none, Bool.false_eq_true, if_neg,
        not_false_eq_true]
      rw [ih]
      simp only [etuStep, h]
    | some msg =>
      simp only [etuRejected, h, Option.isSome_some, if_pos]
      rw [ih]
      simp only [etuStep, h, List.map_cons, mkEtuFailEntry]
      rw [List.append_assoc]
      simp [h]

theorem insCtorOk_eq_false : insCtorOk = false := by decide

theorem insFold_spec (L : List InsFileRow) :
    ∀ st : InsState, st.pending = st.committed →
      L.foldl insStep st =
        { st with
          pending := st.committed
          errorsOther := st.errorsOther + L.length
          log := st.log ++ L.map mkInsFailEntry } := by
  induction L with
  | nil =>
    intro st h
    cases st
    simp_all
  | cons r L ih =>
    intro st h
    rw [List.foldl_cons]
    have hstep : insStep st r =
        { st with
          pending := st.committed
          errorsOther := st.errorsOther + 1
          log := st.log ++ [mkInsFailEntry r] } := by
      simp [insStep, insCtorOk_eq_false]
    rw [hstep, ih _ rfl]
    cases st
    simp_all [List.append_assoc]
    omega

theorem importInscriptions_spec (c0 : List Inscription) (log0 : List LogEntry)
    (rows : List InsFileRow) :
    importInscriptions c0 log0 rows =
      ⟨c0, c0, 0, 0, 0, (rows.filter insRequired).length, 0,
       (rows.filter insRequired).length,
       log0 ++ (rows.filter insRequired).map mkInsFailEntry⟩ := by
  unfold importInscriptions
  simp only []
  rw [insFold_spec _ _ rfl]
  simp

theorem keysNodup_nil {α κ : Type} [DecidableEq κ] (key : α → κ) :
    keysNodup key ([] : List α) := by
  simp [keysNodup]

/-!
Concrete inputs used by the scenario theorems.
-/

/-- The one institution of the end-to-end scenario. -/
def scenarioInstRow : InstFileRow :=
  ⟨.pstr "U1", .pstr "Univ One", .pstr "PUB"⟩

/-- The one metadata row of the end-to-end scenario: one component, one
domain, one program, one track. -/
def scenarioMetaRow : MetaFileRow :=
  ⟨.pstr "FST", .pstr "Sciences", .pstr "U1", .pstr "SCI", .pstr "Science",
   .pstr "MATH", .pstr "Mathematiques", .pstr "M1", .pstr "P1", .pstr "MA",
   .pstr "Parcours Maths", .pint 2020, .pnone⟩

/-- The one enrollment-file row of the end-to-end scenario: one student and
one enrollment whose keys all reference the rows above (level `L1`, bare
semester `S01`, enrollment type `CLASSIQUE`). -/
def scenarioInsRow : InsFileRow :=
  ⟨0, .pstr "I1", .pstr "E1", .pstr "2023-2024", .pstr "P1", .pstr "S01",
   .pstr "L1", .pstr "CLASSIQUE", .pstr "N1", .pstr "Doe", .pstr "Jane",
   .pstr "F", .pdate 7000, .pstr "Ville", .pstr "MG", .pint 2019,
   .pstr "C", .pstr "Centre", .pstr "Adr", .pstr "000", .pstr "a@b.mg",
   .pstr "CIN1", .pdate 14000, .pstr "Ville"⟩

/-- All three files readable, one row each. -/
def scenarioWorld : World :=
  ⟨some [scenarioInstRow], some [scenarioMetaRow], some [scenarioInsRow]⟩

/-- A database that accepts every student row. -/
def verdictAccept : Etudiant → Option String := fun _ => none

/-- A world whose institutions file (the first hierarchy input) is
unreadable, while the enrollment file is fine. -/
def w3 : World :=
  ⟨none, some [scenarioMetaRow], some [scenarioInsRow]⟩

/-- Template row for the enrollment batches: label `i`, the six key columns
as given, a present `nom`, everything else missing. -/
def keyRow (i : Nat) (cod etu an par sem typ : PyVal) : InsFileRow :=
  ⟨i, cod, etu, an, par, sem, .pstr "L1", typ, .pnone, .pstr "Nom", .pnone,
   .pnone, .pnone, .pnone, .pnone, .pnone, .pnone, .pnone, .pnone, .pnone,
   .pnone, .pnone, .pnone, .pnone⟩

/-- Ten enrollment rows of which the last three are missing the track key
`id_parcours` (the dataframe cell is null). -/
def batchMissingTrack : List InsFileRow :=
  (List.range 10).map fun i =>
    keyRow i (.pstr ("I" ++ toString i)) (.pstr ("E" ++ toString i))
      (.pstr "2023-2024") (if i < 7 then .pstr "P1" else .pnone)
      (.pstr "S01") (.pstr "CLAS")

/-- Ten enrollment rows of which the last three are missing the student key
`code_etudiant`. -/
def batchMissingStudent : List InsFileRow :=
  (List.range 10).map fun i =>
    keyRow i (.pstr ("I" ++ toString i))
      (if i < 7 then .pstr ("E" ++ toString i) else .pnone)
      (.pstr "2023-2024") (.pstr "P1") (.pstr "S01") (.pstr "CLAS")

/-- Two fully-keyed enrollment rows whose dataframe labels are 498 and 499;
`(499 + 1) % 500 == 0`, so the label-based checkpoint of line 457 is due at
the second row. -/
def batchC7 : List InsFileRow :=
  [keyRow 498 (.pstr "I498") (.pstr "E498") (.pstr "2023-2024") (.pstr "P1")
     (.pstr "S01") (.pstr "CLAS"),
   keyRow 499 (.pstr "I499") (.pstr "E499") (.pstr "2023-2024") (.pstr "P1")
     (.pstr "S01") (.pstr "CLAS")]

/-- A log entry from some previous run. -/
def sampleLogEntry : LogEntry :=
  ⟨"ETUDIANT", .pstr "E1", 4, "duplicate key"⟩

/-- C2.  The loader module's import list names `TypeInscription`, which the
schema module does not define (it defines `ModeInscription` instead), so
`from models import (...)` raises `ImportError` before any stage can run:
the pipeline's entry points are unreachable in every run. -/
theorem typeInscriptionImportUnresolved :
    "TypeInscription" ∈ importDataModelsImports ∧
    "TypeInscription" ∉ modelsDefinedClasses ∧
    "ModeInscription" ∈ modelsDefinedClasses := by
  decide

/-- C5.  Semester-code enrichment: a bare separator-free semester value with
a level code yields `Level_Sem`; an already-composite value is returned
unchanged; and the synthesis is idempotent. -/
theorem semestreEnrichmentIdempotent :
    enrichSemestre "L1" "S01" = "L1_S01" ∧
    (∀ n s, s ≠ "" → pyInStr '_' s = false → enrichSemestre n s = n ++ "_" ++ s) ∧
    (∀ n s, pyInStr '_' s = true → enrichSemestre n s = s) ∧
    (∀ n s, enrichSemestre n (enrichSemestre n s) = enrichSemestre n s) := by
  have hin : ∀ n s : String, pyInStr '_' (n ++ "_" ++ s) = true := by
    intro n s
    simp [pyInStr, String.data_append]
  refine ⟨by decide, ?_, ?_, ?_⟩
  · intro n s h1 h2
    simp [enrichSemestre, h1, h2]
  · intro n s h
    simp [enrichSemestre, h]
  · intro n s
    by_cases hc : (s != "" && !pyInStr '_' s) = true
    · have h1 : enrichSemestre n s = n ++ "_" ++ s := by
        simp only [enrichSemestre, if_pos hc]
      rw [h1]
      simp [enrichSemestre, hin]
    · have h1 : enrichSemestre n s = s := by
        simp only [enrichSemestre, if_neg hc]
      rw [h1]
      simp only [enrichSemestre, if_neg hc]

/-- C5 witness: the theorem's conditional conjuncts applied at the spec's
own examples. -/
theorem semestreEnrichmentIdempotent_witness :
    ("S01" ≠ "" ∧ pyInStr '_' "S01" = false ∧
      enrichSemestre "L1" "S01" = "L1" ++ "_" ++ "S01") ∧
    (pyInStr '_' "L1_S01" = true ∧ enrichSemestre "L1" "L1_S01" = "L1_S01") :=
  ⟨⟨by decide, by decide,
    semestreEnrichmentIdempotent.2.1 "L1" "S01" (by decide) (by decide)⟩,
   ⟨by decide, semestreEnrichmentIdempotent.2.2.1 "L1" "L1_S01" (by decide)⟩⟩

/-- C9 counterexample: cleaning maps null-like tokens to literal strings,
not to an absent value: `safe_string` returns an empty string unchanged, and
the `astype(str).apply(safe_string)` key-cleaning renders a null cell as the
literal string `"None"` (and `NaN` as `"nan"`) in the cleaned record. -/
theorem nullTokensStayLiteral :
    safe_string (.pstr "") = .pstr "" ∧
    cleanKey .pnone = .pstr "None" ∧
    cleanKey .pnan = .pstr "nan" := by
  decide

/-- C9 amended: strings are trimmed, non-strings pass through unchanged, but
empty and null-like tokens stay literal strings in the cleaned record. -/
theorem safeStringBehavior :
    (∀ s, safe_string (.pstr s) = .pstr (pyStrip s)) ∧
    (∀ v, v.isStr = false → safe_string v = v) ∧
    safe_string (.pstr "  x  ") = .pstr "x" ∧
    cleanKey .pnone = .pstr "None" := by
  refine ⟨fun s => rfl, ?_, by decide, by decide⟩
  intro v hv
  cases v <;> simp_all [safe_string, PyVal.isStr]

/-- C9 witness: the non-string pass-through conjunct at a concrete value. -/
theorem safeStringBehavior_witness :
    (PyVal.pint 3).isStr = false ∧ safe_string (.pint 3) = .pint 3 :=
  ⟨by decide, safeStringBehavior.2.1 (.pint 3) (by decide)⟩

/-- C10 counterexample: the diagnostics log is opened with `filemode='w'`
at the start of every run, so an entry from a previous run is silently lost
when any new run starts, not only at an explicit pipeline restart. -/
theorem logTruncatedOnNewRun :
    newRunLogInit [sampleLogEntry] = [] ∧
    ([sampleLogEntry] : List LogEntry) ≠ [] ∧
    loggingFilemode = "w" := by
  decide

/-- C10 amended: the log is reset at the start of every run; within a run
each loader only ever appends to it (each failed row contributing its
structured entry). -/
theorem logResetEachRunAppendOnlyWithin :
    (∀ prev : List LogEntry, newRunLogInit prev = []) ∧
    (∀ (verdict : Etudiant → Option String) tbl0 log0 rows,
      (importEtudiants verdict tbl0 log0 rows).log =
        log0 ++ ((etuPrep rows).filter (etuRejected verdict)).map
          (mkEtuFailEntry verdict)) ∧
    (∀ c0 log0 rows,
      (importInscriptions c0 log0 rows).log =
        log0 ++ (rows.filter insRequired).map mkInsFailEntry) := by
  refine ⟨fun prev => rfl, ?_, ?_⟩
  · intro verdict tbl0 log0 rows
    exact etuFold_log verdict (etuPrep rows) ⟨tbl0, 0, log0⟩
  · intro c0 log0 rows
    rw [importInscriptions_spec]

/-- C7.  Although two fully-keyed rows are processed and the second row's
label satisfies the `(index + 1) % 500 == 0` checkpoint test, the
`Inscription(code_type_inscription=...)` constructor call raises `TypeError`
on every row (the mapped column is `code_mode_inscription`), so no row is
ever pending, no checkpoint commit ever fires, both rows are counted in the
`other` category, and the table is unchanged. -/
theorem inscriptionBatchNeverCommits :
    insCtorOk = false ∧
    (importInscriptions [] [] (batchC7.map cleanInsRow)).committed = [] ∧
    (importInscriptions [] [] (batchC7.map cleanInsRow)).errorsOther = 2 ∧
    (importInscriptions [] [] (batchC7.map cleanInsRow)).checkpoints = 0 ∧
    (importInscriptions [] [] (batchC7.map cleanInsRow)).attempted = 2 ∧
    (499 + 1) % 500 = 0 := by
  decide

/-- C8 counterexample: of ten rows, three have a null track key
(`id_parcours`), yet all ten are attempted — the key-cleaning `astype(str)`
turned the nulls into the literal string `"None"` before the `dropna`
precondition filter, so the claim's `exactly 7 attempted` fails. -/
theorem missingTrackKeyNotExcluded :
    (cleanInsRow (batchMissingTrack.get ⟨7, by decide⟩)).id_parcours = .pstr "None" ∧
    ((batchMissingTrack.map cleanInsRow).filter insRequired).length = 10 ∧
    (importInscriptions [] [] (batchMissingTrack.map cleanInsRow)).attempted = 10 := by
  decide

/-- C8 amended: the `dropna` filter does exclude rows whose student key is
null (that column is not stringified): of ten rows with three null student
keys, exactly seven are attempted, the three excluded rows appear in no
error counter, and no separate exclusion count is reported (the recap has
only the four database-error counters, summing to the seven attempted
rows, which all fail on the broken constructor). -/
theorem exclusionAccountingAmended :
    ((batchMissingStudent.map cleanInsRow).filter insRequired).length = 7 ∧
    (importInscriptions [] [] (batchMissingStudent.map cleanInsRow)).attempted = 7 ∧
    (importInscriptions [] [] (batchMissingStudent.map cleanInsRow)).errorsFk = 0 ∧
    (importInscriptions [] [] (batchMissingStudent.map cleanInsRow)).errorsUq = 0 ∧
    (importInscriptions [] [] (batchMissingStudent.map cleanInsRow)).errorsData = 0 ∧
    (importInscriptions [] [] (batchMissingStudent.map cleanInsRow)).errorsOther = 7 := by
  decide

/-- C1.  Running the whole pipeline on the one-of-each scenario: the
hierarchy and student rows land, but the enrollment row is lost to the
broken `Inscription` constructor and is counted as one `other` error — the
final state does not have one row in each dependent table.  (In the real
program the run fails even earlier: the module import of `TypeInscription`
raises, cf. `typeInscriptionImportUnresolved`.) -/
theorem runScenarioLosesEnrollment :
    (runAllFrom scenarioWorld verdictAccept emptyDB []).db.institutions.length = 1 ∧
    (runAllFrom scenarioWorld verdictAccept emptyDB []).db.composantes.length = 1 ∧
    (runAllFrom scenarioWorld verdictAccept emptyDB []).db.domaines.length = 1 ∧
    (runAllFrom scenarioWorld verdictAccept emptyDB []).db.mentions.length = 1 ∧
    (runAllFrom scenarioWorld verdictAccept emptyDB []).db.parcours.length = 1 ∧
    (runAllFrom scenarioWorld verdictAccept emptyDB []).db.etudiants.length = 1 ∧
    (runAllFrom scenarioWorld verdictAccept emptyDB []).db.inscriptions = [] ∧
    (runAllFrom scenarioWorld verdictAccept emptyDB []).insAttempted = 1 ∧
    (runAllFrom scenarioWorld verdictAccept emptyDB []).insOther = 1 := by
  decide

/-- C3 counterexample: with the institutions file unreadable the hierarchy
stage fails, yet the orchestrator still starts the enrollment stage — which
even commits student rows. -/
theorem enrollmentStageRunsAfterHierarchyFailure :
    (runAllFrom w3 verdictAccept emptyDB []).hierarchyOk = false ∧
    (runAllFrom w3 verdictAccept emptyDB []).enrollmentsStarted = true ∧
    (runAllFrom w3 verdictAccept emptyDB []).db.etudiants ≠ [] := by
  decide

/-- C3 amended: a stage failure surfaces the error and abandons that
stage's remaining work (nothing of the hierarchy is committed when its
first input file is unreadable), but the orchestrator does not halt the
run: the enrollment stage is still started. -/
theorem stageFailureDoesNotHaltRun (w : World) (verdict : Etudiant → Option String)
    (h : w.institutionsFile = none) :
    (runAllFrom w verdict emptyDB []).hierarchyOk = false ∧
    (runAllFrom w verdict emptyDB []).db.institutions = [] ∧
    (runAllFrom w verdict emptyDB []).enrollmentsStarted = true := by
  obtain ⟨wi, wm, wins⟩ := w
  simp only [World.institutionsFile] at h
  subst h
  cases wins <;>
    simp [runAllFrom, importMetadataToDb, importInscriptionsToDb,
      loadAndCleanInscriptions, importAnneesDb, importInscriptionsDb,
      importInscriptions_spec, importEtudiants, etuFold_tbl,
      importFixedReferences, emptyDB]

/-- C3 witness: the amended statement at the concrete unreadable-hierarchy
world. -/
theorem stageFailureDoesNotHaltRun_witness :
    w3.institutionsFile = none ∧
    ((runAllFrom w3 verdictAccept emptyDB []).hierarchyOk = false ∧
     (runAllFrom w3 verdictAccept emptyDB []).db.institutions = [] ∧
     (runAllFrom w3 verdictAccept emptyDB []).enrollmentsStarted = true) :=
  ⟨rfl, stageFailureDoesNotHaltRun w3 verdictAccept rfl⟩

/-- C6.  Student import is row-level isolated: over the deduplicated,
key-filtered batch, if exactly one row is rejected by the database, then
all other rows are committed (merged in order), exactly one error is
counted, and exactly one log entry — carrying the natural key, the source
row label and the cause — is appended. -/
theorem etudiantRowIsolation (verdict : Etudiant → Option String)
    (tbl0 : List Etudiant) (log0 : List LogEntry) (rows A B : List InsFileRow)
    (bad : InsFileRow) (msg : String)
    (hP : etuPrep rows = A ++ bad :: B)
    (hA : ∀ r ∈ A, verdict (mkEtudiant r) = none)
    (hB : ∀ r ∈ B, verdict (mkEtudiant r) = none)
    (hbad : verdict (mkEtudiant bad) = some msg) :
    (importEtudiants verdict tbl0 log0 rows).tbl =
      load etuKey tbl0 ((A ++ B).map mkEtudiant) ∧
    (importEtudiants verdict tbl0 log0 rows).errors = 1 ∧
    (importEtudiants verdict tbl0 log0 rows).log =
      log0 ++ [⟨"ETUDIANT", bad.code_etudiant, bad.label, msg⟩] := by
  have hfA : A.filter (etuAccepted verdict) = A :=
    List.filter_eq_self.mpr fun r hr => by simp [etuAccepted, hA r hr]
  have hfB : B.filter (etuAccepted verdict) = B :=
    List.filter_eq_self.mpr fun r hr => by simp [etuAccepted, hB r hr]
  have hrA : A.filter (etuRejected verdict) = [] := by
    simp only [List.filter_eq_nil_iff]
    intro r hr
    simp [etuRejected, hA r hr]
  have hrB : B.filter (etuRejected verdict) = [] := by
    simp only [List.filter_eq_nil_iff]
    intro r hr
    simp [etuRejected, hB r hr]
  have hacc : (A ++ bad :: B).filter (etuAccepted verdict) = A ++ B := by
    rw [List.filter_append, List.filter_cons, hfA, hfB]
    simp [etuAccepted, hbad]
  have hrej : (A ++ bad :: B).filter (etuRejected verdict) = [bad] := by
    rw [List.filter_append, List.filter_cons, hrA, hrB]
    simp [etuRejected, hbad]
  unfold importEtudiants
  rw [hP]
  refine ⟨?_, ?_, ?_⟩
  · rw [etuFold_tbl, hacc]
  · rw [etuFold_errors, hrej]
    rfl
  · rw [etuFold_log, hrej]
    simp [mkEtuFailEntry, hbad]

/-- The three-row student batch whose middle row the database rejects. -/
def rowEtuA : InsFileRow :=
  keyRow 0 (.pstr "IA") (.pstr "EA") (.pstr "2023-2024") (.pstr "P1")
    (.pstr "S01") (.pstr "CLAS")

def rowEtuBad : InsFileRow :=
  keyRow 1 (.pstr "IB") (.pstr "BAD") (.pstr "2023-2024") (.pstr "P1")
    (.pstr "S01") (.pstr "CLAS")

def rowEtuB : InsFileRow :=
  keyRow 2 (.pstr "IC") (.pstr "EC") (.pstr "2023-2024") (.pstr "P1")
    (.pstr "S01") (.pstr "CLAS")

def rowsEtu3 : List InsFileRow := [rowEtuA, rowEtuBad, rowEtuB]

/-- A database that rejects exactly the student whose code is `BAD`. -/
def verdictRejectBad : Etudiant → Option String := fun e =>
  if e.codeEtudiant = .pstr "BAD" then some "boom" else none

/-- C6 witness: the row-isolation theorem at a concrete three-row batch
whose middle row fails. -/
theorem etudiantRowIsolation_witness :
    (importEtudiants verdictRejectBad [] [] rowsEtu3).tbl =
      load etuKey [] (([rowEtuA] ++ [rowEtuB]).map mkEtudiant) ∧
    (importEtudiants verdictRejectBad [] [] rowsEtu3).errors = 1 ∧
    (importEtudiants verdictRejectBad [] [] rowsEtu3).log =
      [] ++ [⟨"ETUDIANT", rowEtuBad.code_etudiant, rowEtuBad.label, "boom"⟩] :=
  etudiantRowIsolation verdictRejectBad [] [] rowsEtu3 [rowEtuA] [rowEtuB]
    rowEtuBad "boom" (by decide)
    (by decide) (by decide) (by decide)

/-- C4.  Running the full pipeline a second time on the same input over the
state the first run produced changes nothing, and after the first run no
table holds two rows with the same natural key: every entity load is an
upsert keyed by the natural key.  The statement quantifies over every world
(including unreadable files) and every database verdict on student rows. -/
theorem pipelineIdempotentNoDuplicateKeys (w : World) (verdict : Etudiant → Option String) :
    (runAllFrom w verdict (runAllFrom w verdict emptyDB []).db []).db =
      (runAllFrom w verdict emptyDB []).db ∧
    dbKeysNodup (runAllFrom w verdict emptyDB []).db := by
  obtain ⟨wi, wm, wins⟩ := w
  cases wi <;> cases wm <;> cases wins <;>
    (refine ⟨?_, ?_⟩ <;>
      simp only [runAllFrom, importFixedReferences, importMetadataToDb,
        loadAndCleanMetadata, importInstitutionsDb, importComposantesDb,
        importDomainesDb, importMentionsDb, importParcoursDb,
        loadAndCleanInscriptions, importInscriptionsToDb, importAnneesDb,
        importInscriptionsDb, importInscriptions_spec, importEtudiants,
        etuFold_tbl, emptyDB, dbKeysNodup]) <;>
    first
      | rfl
      | (apply DB.ext <;>
          first
            | rfl
            | exact load_load _ _ _ (keysNodup_nil _))
      | (refine ⟨?_, ?_, ?_, ?_, ?_, ?_, ?_, ?_, ?_, ?_, ?_, ?_, ?_⟩ <;>
          first
            | exact keysNodup_nil _
            | exact keysNodup_load _ _ _ (keysNodup_nil _))

end Scolarite
